import Mathlib

/-!
Verification development for the service registry and discovery subsystem
of the `chain` repository (`internal/registry/registry.go` and the
three-backend variant of the same module).

The Go code is shallowly embedded as follows:
* Go maps (`map[string]*ServiceInfo`, the etcd keyspace) become association
  lists keyed by `String`; Go map update / delete become `alUpdate` /
  `alErase`.
* `time.Time` values become `Nat` timestamps counted in seconds (the only
  arithmetic the code performs on them is `now.Sub(t) > 60*time.Second`
  style comparisons, which become `now - t > 60` on `Nat`).
* Go's `error` return becomes `Option String` (`none` = `nil` error,
  `some msg` = a non-nil error carrying `msg`).
* `encoding/json` payloads become an explicit `Json` tree type;
  `json.Marshal` of a `ServiceInfo` becomes `marshalService`, and
  `json.Unmarshal` into a `ServiceInfo` becomes `unmarshalService`
  (absent object fields leave the Go zero value, a top-level non-object
  or a type-mismatched field is a decode error, as in Go).
* The etcd client is modelled by an explicit `EtcdState`: the keyspace,
  the granted leases with their TTLs, and the registry's local
  `services` bookkeeping map.  Network errors of the client are outside
  the model: the theorems describe the success path of each client call,
  which is what the claims under verification speak about.
* Pointer aliasing in the in-memory backend (its map stores `*ServiceInfo`
  and `Discover` returns those pointers) is modelled separately by a small
  heap (`Heap`) of `ServiceInfo` cells addressed by `Nat`, with the
  backend's map sending IDs to addresses.
-/

namespace ChainRegistry

/-- `ServiceInfo` from `internal/registry/registry.go` (identical in the
three-backend variant): one registered instance of one logical service.
`LastSeen` (`time.Time` in Go) is a `Nat` timestamp in seconds. -/
structure ServiceInfo where
  id : String
  name : String
  address : String
  port : Int
  tags : List String
  meta : List (String × String)
  healthy : Bool
  lastSeen : Nat
deriving DecidableEq, Repr

/-- Association-list lookup, modelling Go map read `m[k]`. -/
def alLookup (k : String) : List (String × α) → Option α
  | [] => none
  | (k₁, v₁) :: rest => if k₁ = k then some v₁ else alLookup k rest

/-- Association-list update, modelling Go map write `m[k] = v`. -/
def alUpdate (k : String) (v : α) : List (String × α) → List (String × α)
  | [] => [(k, v)]
  | (k₁, v₁) :: rest => if k₁ = k then (k, v) :: rest else (k₁, v₁) :: alUpdate k v rest

/-- Association-list removal, modelling Go map delete `delete(m, k)`. -/
def alErase (k : String) (l : List (String × α)) : List (String × α) :=
  l.filter fun e => e.1 ≠ k

/-- The value-level state of the in-memory backend: its
`services map[string]*ServiceInfo` read at the level of stored record
values (the pointer-level view lives in `Heap` below). -/
abbrev MemState := List (String × ServiceInfo)

namespace MemoryRegistry

/-- `MemoryRegistry.Register`: sets `service.Healthy = true` and
`service.LastSeen = time.Now()`, stores the record under `service.ID`,
and returns `nil`. -/
def Register (now : Nat) (svc : ServiceInfo) (m : MemState) :
    MemState × Option String :=
  (alUpdate svc.id { svc with healthy := true, lastSeen := now } m, none)

/-- `MemoryRegistry.Deregister`: deletes the entry for `serviceID` if
present and returns `nil` either way. -/
def Deregister (serviceID : String) (m : MemState) : MemState × Option String :=
  match alLookup serviceID m with
  | some _ => (alErase serviceID m, none)
  | none => (m, none)

/-- `MemoryRegistry.Discover`: returns the stored records whose `Name`
matches and whose `Healthy` flag is set, and a `nil` error. -/
def Discover (serviceName : String) (m : MemState) :
    List ServiceInfo × Option String :=
  ((m.filter fun e => e.2.name = serviceName ∧ e.2.healthy).map fun e => e.2, none)

/-- `MemoryRegistry.HealthCheck`: if `serviceID` is registered, resets its
`LastSeen` to now and its `Healthy` to true; returns `nil` in all cases. -/
def HealthCheck (now : Nat) (serviceID : String) (m : MemState) :
    MemState × Option String :=
  match alLookup serviceID m with
  | some s => (alUpdate serviceID { s with lastSeen := now, healthy := true } m, none)
  | none => (m, none)

/-- The body of one iteration of `healthCheckLoop` applied to one record:
mark `Healthy = false` when `now.Sub(LastSeen) > 60s`, then drop the
record when `now.Sub(LastSeen) > 120s` (both tests run on each tick, in
this order, over each map entry). -/
def sweepRecord (now : Nat) (s : ServiceInfo) : Option ServiceInfo :=
  let s₁ := if now - s.lastSeen > 60 then { s with healthy := false } else s
  if now - s₁.lastSeen > 120 then none else some s₁

/-- One 30-second tick of `healthCheckLoop`, applied to the whole map. -/
def sweepAt (now : Nat) (m : MemState) : MemState :=
  m.filterMap fun e => (sweepRecord now e.2).map fun s => (e.1, s)

/-- A run of successive `healthCheckLoop` ticks at the given times. -/
def runSweeps (ticks : List Nat) (m : MemState) : MemState :=
  ticks.foldl (fun acc t => sweepAt t acc) m

end MemoryRegistry

/-- JSON values, as produced and consumed by `encoding/json` for the
payloads the etcd backend stores.  `time` stands for the RFC3339 string
rendering of a `time.Time` whose timestamp (in seconds) is the given
`Nat`; the rendering details are elided but its injectivity, the only
property the code relies on, is preserved by carrying the timestamp. -/
inductive Json where
  | str : String → Json
  | num : Int → Json
  | jbool : Bool → Json
  | null : Json
  | arr : List Json → Json
  | obj : List (String × Json) → Json
  | time : Nat → Json

/-- `json.Marshal` of a `ServiceInfo`: a flat object whose field names
come from the struct's json tags, in struct declaration order. -/
def marshalService (s : ServiceInfo) : Json :=
  Json.obj
    [("id", Json.str s.id), ("name", Json.str s.name),
     ("address", Json.str s.address), ("port", Json.num s.port),
     ("tags", Json.arr (s.tags.map Json.str)),
     ("meta", Json.obj (s.meta.map fun p => (p.1, Json.str p.2))),
     ("healthy", Json.jbool s.healthy), ("last_seen", Json.time s.lastSeen)]

/-- Decode a string-typed struct field: an absent or null field keeps the
zero value `""`; a value of another JSON type is a decode error. -/
def asStr : Option Json → Option String
  | none => some ""
  | some (Json.str s) => some s
  | some Json.null => some ""
  | some _ => none

/-- Decode an int-typed struct field (Go zero value `0`). -/
def asInt : Option Json → Option Int
  | none => some 0
  | some (Json.num n) => some n
  | some Json.null => some 0
  | some _ => none

/-- Decode a bool-typed struct field (Go zero value `false`). -/
def asBool : Option Json → Option Bool
  | none => some false
  | some (Json.jbool b) => some b
  | some Json.null => some false
  | some _ => none

/-- Decode a `time.Time`-typed struct field (Go zero value: the zero
time, modelled as timestamp `0`). -/
def asTime : Option Json → Option Nat
  | none => some 0
  | some (Json.time t) => some t
  | some Json.null => some 0
  | some _ => none

/-- Decode one element of a `[]string` field. -/
def asStrElem : Json → Option String
  | Json.str s => some s
  | _ => none

/-- Decode the elements of a `[]string` field one by one; any
non-string element is a decode error. -/
def decodeStrList : List Json → Option (List String)
  | [] => some []
  | j :: rest => do
      let s ← asStrElem j
      let l ← decodeStrList rest
      some (s :: l)

/-- Decode a `[]string`-typed struct field (Go zero value `nil`). -/
def asStrList : Option Json → Option (List String)
  | none => some []
  | some Json.null => some []
  | some (Json.arr xs) => decodeStrList xs
  | some _ => none

/-- Decode the entries of a `map[string]string` field one by one; any
non-string entry value is a decode error. -/
def decodeStrMap : List (String × Json) → Option (List (String × String))
  | [] => some []
  | (k, j) :: rest => do
      let s ← asStrElem j
      let l ← decodeStrMap rest
      some ((k, s) :: l)

/-- Decode a `map[string]string`-typed struct field (Go zero value `nil`). -/
def asStrMap : Option Json → Option (List (String × String))
  | none => some []
  | some Json.null => some []
  | some (Json.obj fields) => decodeStrMap fields
  | some _ => none

/-- `json.Unmarshal` of a stored payload into a `ServiceInfo`: the
top-level value must be an object; each recognized field must have the
type of the corresponding struct field; unrecognized or absent fields
leave zero values. -/
def unmarshalService : Json → Option ServiceInfo
  | Json.obj fields => do
      let id ← asStr (alLookup "id" fields)
      let name ← asStr (alLookup "name" fields)
      let address ← asStr (alLookup "address" fields)
      let port ← asInt (alLookup "port" fields)
      let tags ← asStrList (alLookup "tags" fields)
      let meta ← asStrMap (alLookup "meta" fields)
      let healthy ← asBool (alLookup "healthy" fields)
      let lastSeen ← asTime (alLookup "last_seen" fields)
      some ⟨id, name, address, port, tags, meta, healthy, lastSeen⟩
  | _ => none

/-- The key `fmt.Sprintf("/services/%s/%s", name, id)` used by the etcd
backend for both `Register` and `Deregister`. -/
def serviceKey (name id : String) : String :=
  "/services/" ++ name ++ "/" ++ id

/-- The scan key `fmt.Sprintf("/services/%s/", name)` used by the etcd
backend's `Discover`, queried with `clientv3.WithPrefix()`. -/
def servicePfx (name : String) : String :=
  "/services/" ++ name ++ "/"

/-- Key-range test of `clientv3.WithPrefix()`: whether `p` is a prefix
of the key `s`, computed structurally over the characters. -/
def isPfxOf (p s : String) : Bool :=
  p.data.isPrefixOf s.data

/-- The observable state of an `EtcdRegistry` together with the etcd
keyspace it talks to: `kv` maps keys to the stored payload and the lease
it is bound to, `leases` records every granted lease with its TTL in
seconds, `services` is the registry's local bookkeeping map, `leaseID`
mirrors the struct field of the same name, and `nextLease` is the next
lease ID the store will grant. -/
structure EtcdState where
  kv : List (String × (Json × Nat))
  leases : List (Nat × Nat)
  services : List (String × ServiceInfo)
  leaseID : Nat
  nextLease : Nat

namespace EtcdRegistry

/-- `EtcdRegistry.Register`, success path of the client calls: grants a
30-second lease, marshals the record, puts it under
`/services/{Name}/{ID}` bound to that lease, records the lease ID, and
stores the record in the local `services` map.  The keep-alive goroutine
the code spawns renews the lease in the background and is not part of
this state-level model. -/
def Register (svc : ServiceInfo) (st : EtcdState) : EtcdState × Option String :=
  let lease := st.nextLease
  ({ kv := alUpdate (serviceKey svc.name svc.id) (marshalService svc, lease) st.kv,
     leases := (lease, 30) :: st.leases,
     services := alUpdate svc.id svc st.services,
     leaseID := lease,
     nextLease := lease + 1 }, none)

/-- `EtcdRegistry.Deregister`: if the ID is absent from the local
`services` map, returns the error `service {id} not found` without
touching anything; otherwise deletes the key and the local entry. -/
def Deregister (serviceID : String) (st : EtcdState) : EtcdState × Option String :=
  match alLookup serviceID st.services with
  | none => (st, some ("service " ++ serviceID ++ " not found"))
  | some svc =>
      ({ st with
         kv := alErase (serviceKey svc.name serviceID) st.kv,
         services := alErase serviceID st.services }, none)

/-- `EtcdRegistry.Discover`, success path of the client `Get`: prefix
scan over `/services/{name}/`; each value that unmarshals is appended,
a value that fails to unmarshal is logged and skipped (`continue`). -/
def Discover (serviceName : String) (st : EtcdState) :
    List ServiceInfo × Option String :=
  ((st.kv.filter fun e => isPfxOf (servicePfx serviceName) e.1).filterMap
      fun e => unmarshalService e.2.1, none)

end EtcdRegistry

/-- ASCII lowering of one character, modelling `strings.ToLower` on the
backend-type selectors actually in play (`"etcd"`, `"consul"`,
`"memory"`, all ASCII). -/
def lowerChar (c : Char) : Char :=
  if 'A' ≤ c ∧ c ≤ 'Z' then Char.ofNat (c.toNat + 32) else c

/-- `strings.ToLower` on the selector string (ASCII model). -/
def toLowerModel (s : String) : String :=
  String.mk (s.data.map lowerChar)

/-- `strings.Split(address, ",")` on the character list of the address. -/
def splitCommaAux : List Char → List Char → List String
  | [], acc => [String.mk acc.reverse]
  | c :: rest, acc =>
      if c = ',' then String.mk acc.reverse :: splitCommaAux rest []
      else splitCommaAux rest (c :: acc)

/-- `strings.Split(address, ",")`. -/
def splitComma (s : String) : List String :=
  splitCommaAux s.data []

/-- Which concrete backend a `Registry` value returned by the factory is. -/
inductive BackendKind where
  | etcd : BackendKind
  | consul : BackendKind
  | memory : BackendKind
deriving DecidableEq, Repr

/-- The connectivity environment the factory runs in: whether
`NewEtcdRegistry` succeeds for a given endpoint list (`clientv3.New`
returning no error) and whether `NewConsulRegistry` succeeds for a given
address (client creation plus the `Status().Leader()` probe). -/
structure ConnEnv where
  etcdOk : List String → Bool
  consulOk : String → Bool

/-- The endpoint defaulting inside `NewEtcdRegistry`: an empty list
becomes `["localhost:2379"]`. -/
def etcdEndpoints (endpoints : List String) : List String :=
  if endpoints = [] then ["localhost:2379"] else endpoints

/-- `NewRegistry(registryType, address)` of the three-backend variant:
lowercases the selector; for `"etcd"` splits the (non-empty) address on
commas and builds the etcd backend, falling back to the in-memory
backend if construction fails; for `"consul"` likewise; every other
selector yields the in-memory backend.  The Go signature returns only
`Registry` — there is no error channel to the caller at all. -/
def NewRegistry (env : ConnEnv) (registryType address : String) : BackendKind :=
  match toLowerModel registryType with
  | "etcd" =>
      let endpoints := if address = "" then [] else splitComma address
      if env.etcdOk (etcdEndpoints endpoints) then BackendKind.etcd
      else BackendKind.memory
  | "consul" =>
      if env.consulOk address then BackendKind.consul else BackendKind.memory
  | _ => BackendKind.memory

/-- One `MemoryRegistry` allocation of the three-backend variant: its
service map (value view) and whether its context has been cancelled
(which is what stops `healthCheckLoop`). -/
structure MemoryRegistryObj where
  services : MemState
  cancelled : Bool
deriving DecidableEq, Repr

/-- Process-wide state relevant to `NewMemoryRegistry` in the
three-backend variant: the allocated `MemoryRegistry` objects (addressed
by index) and the `memoryRegistryInstance` package-level pointer guarded
by `memoryRegistryOnce`. -/
structure ProcState where
  objs : List MemoryRegistryObj
  memoryRegistryInstance : Option Nat
deriving DecidableEq, Repr

/-- `NewMemoryRegistry()` of the three-backend variant: under
`memoryRegistryOnce`, the first call allocates the instance (empty map,
live context, sweep goroutine started) and stores it in the package
variable; every call returns that pointer. -/
def NewMemoryRegistry (ps : ProcState) : ProcState × Nat :=
  match ps.memoryRegistryInstance with
  | some p => (ps, p)
  | none =>
      let p := ps.objs.length
      ({ objs := ps.objs ++ [⟨[], false⟩], memoryRegistryInstance := some p }, p)

/-- `MemoryRegistry.Close` at the process level: cancels the context of
the instance the pointer refers to (stopping its `healthCheckLoop`) and
returns `nil`. -/
def closeMemoryRegistry (p : Nat) (ps : ProcState) : ProcState × Option String :=
  match ps.objs[p]? with
  | some o => ({ ps with objs := ps.objs.set p { o with cancelled := true } }, none)
  | none => (ps, none)

/-- A heap of `ServiceInfo` cells, addressed by index: the pointer-level
view of the `*ServiceInfo` values the in-memory backend stores. -/
structure Heap where
  cells : List ServiceInfo
deriving DecidableEq, Repr

/-- Dereference a pointer. -/
def Heap.get (h : Heap) (p : Nat) : Option ServiceInfo :=
  h.cells[p]?

/-- Write through a pointer. -/
def Heap.set (h : Heap) (p : Nat) (s : ServiceInfo) : Heap :=
  ⟨h.cells.set p s⟩

/-- The in-memory backend's map at the pointer level: IDs to addresses
of the `*ServiceInfo` values it stores. -/
abbrev PtrMap := List (String × Nat)

namespace MemoryRegistryP

/-- `MemoryRegistry.Register` at the pointer level: mutates the caller's
record in place (`service.Healthy = true`, `service.LastSeen = now`) and
stores the caller's pointer itself in the map. -/
def Register (now : Nat) (p : Nat) (h : Heap) (m : PtrMap) :
    Heap × PtrMap × Option String :=
  match h.get p with
  | some s =>
      let s₁ := { s with healthy := true, lastSeen := now }
      (h.set p s₁, alUpdate s₁.id p m, none)
  | none => (h, m, none)

/-- `MemoryRegistry.Discover` at the pointer level: collects the stored
pointers whose referent matches the name and is healthy — the very
pointers in the map, not copies of the records. -/
def Discover (serviceName : String) (h : Heap) (m : PtrMap) :
    List Nat × Option String :=
  ((m.filter fun e =>
      match h.get e.2 with
      | some s => s.name = serviceName ∧ s.healthy
      | none => False).map fun e => e.2, none)

end MemoryRegistryP

/-- Concrete fixture: the spec's scenario record, but with the caller
leaving `Healthy = false` (the zero value a Go caller gets when it does
not set the field). -/
def svcPricing : ServiceInfo :=
  ⟨"svc-1", "pricing", "10.0.0.5", 9090, ["primary"], [("version", "1.0")], false, 0⟩

/-- Concrete fixture: an empty etcd backend state. -/
def etcdEmpty : EtcdState := ⟨[], [], [], 0, 0⟩

/-- Concrete fixture: instance `"a"` first registered under name `"n1"`. -/
def svcN1 : ServiceInfo := ⟨"a", "n1", "h1", 1, [], [], true, 0⟩

/-- Concrete fixture: the same instance `"a"` re-registered under name
`"n2"`. -/
def svcN2 : ServiceInfo := ⟨"a", "n2", "h2", 2, [], [], true, 0⟩

/-! Helper lemmas about the association-list operations and the JSON
round trip; shared by the claim theorems below. -/

theorem alLookup_alUpdate_self (k : String) (v : α) (l : List (String × α)) :
    alLookup k (alUpdate k v l) = some v := by
  induction l with
  | nil => simp [alUpdate, alLookup]
  | cons e rest ih =>
      by_cases h : e.1 = k
      · simp [alUpdate, alLookup, h]
      · simp [alUpdate, alLookup, h, ih]

theorem mem_alUpdate_self (k : String) (v : α) (l : List (String × α)) :
    (k, v) ∈ alUpdate k v l := by
  induction l with
  | nil => simp [alUpdate]
  | cons e rest ih =>
      by_cases h : e.1 = k
      · simp [alUpdate, h]
      · simp only [alUpdate, if_neg h, List.mem_cons]
        exact Or.inr ih

theorem alUpdate_alUpdate (k : String) (v₁ v₂ : α) (l : List (String × α)) :
    alUpdate k v₂ (alUpdate k v₁ l) = alUpdate k v₂ l := by
  induction l with
  | nil => simp [alUpdate]
  | cons e rest ih =>
      by_cases h : e.1 = k
      · simp [alUpdate, h]
      · simp [alUpdate, h, ih]

theorem decodeStrList_map_str (l : List String) :
    decodeStrList (l.map Json.str) = some l := by
  induction l with
  | nil => rfl
  | cons s rest ih => simp [decodeStrList, asStrElem, ih]

theorem decodeStrMap_map_str (l : List (String × String)) :
    decodeStrMap (l.map fun p => (p.1, Json.str p.2)) = some l := by
  induction l with
  | nil => rfl
  | cons p rest ih => simp [decodeStrMap, asStrElem, ih]

theorem unmarshal_marshal (s : ServiceInfo) :
    unmarshalService (marshalService s) = some s := by
  simp [unmarshalService, marshalService, alLookup, asStr, asInt, asBool,
    asTime, asStrList, asStrMap, decodeStrList_map_str, decodeStrMap_map_str]

theorem listIsPrefixOf_append (l t : List Char) :
    l.isPrefixOf (l ++ t) = true := by
  induction l with
  | nil => simp [List.isPrefixOf]
  | cons c rest ih => simp [List.isPrefixOf, ih]

theorem isPfxOf_append (p t : String) : isPfxOf p (p ++ t) = true := by
  show (p.data.isPrefixOf (p ++ t).data) = true
  have h : (p ++ t).data = p.data ++ t.data := rfl
  rw [h]
  exact listIsPrefixOf_append _ _

theorem serviceKey_eq (n i : String) : serviceKey n i = servicePfx n ++ i := rfl

/-- C1 (amended): after a successful `Register`, an immediate `Discover`
of the service's name contains an entry whose ID equals the service's
ID on both the in-memory and the lease-store backend; the in-memory
backend forces that entry's `Healthy` to `true`, but the lease-store
backend stores the caller's record verbatim and does not filter on
health, so the discovered entry's `Healthy` equals whatever the caller
passed. -/
theorem c1_register_discover (now : Nat) (svc : ServiceInfo) (m : MemState)
    (st : EtcdState) :
    (MemoryRegistry.Register now svc m).2 = none ∧
    (∃ e ∈ (MemoryRegistry.Discover svc.name (MemoryRegistry.Register now svc m).1).1,
        e.id = svc.id ∧ e.healthy = true) ∧
    (EtcdRegistry.Register svc st).2 = none ∧
    (∃ e ∈ (EtcdRegistry.Discover svc.name (EtcdRegistry.Register svc st).1).1,
        e.id = svc.id ∧ e.healthy = svc.healthy) := by
  refine ⟨rfl, ?_, rfl, ?_⟩
  · refine ⟨{ svc with healthy := true, lastSeen := now }, ?_, rfl, rfl⟩
    simp only [MemoryRegistry.Register, MemoryRegistry.Discover, List.mem_map]
    refine ⟨(svc.id, { svc with healthy := true, lastSeen := now }), ?_, rfl⟩
    rw [List.mem_filter]
    exact ⟨mem_alUpdate_self _ _ _, by simp⟩
  · refine ⟨svc, ?_, rfl, rfl⟩
    simp only [EtcdRegistry.Register, EtcdRegistry.Discover]
    rw [List.mem_filterMap]
    refine ⟨(serviceKey svc.name svc.id, (marshalService svc, st.nextLease)), ?_,
      unmarshal_marshal svc⟩
    rw [List.mem_filter]
    refine ⟨mem_alUpdate_self _ _ _, ?_⟩
    simpa [serviceKey_eq] using isPfxOf_append (servicePfx svc.name) svc.id

/-- C1 counterexample: registering a record whose `Healthy` field is
`false` on the lease-store backend succeeds, and the immediately
following `Discover` of its name returns that record with
`Healthy = false` — there is no entry with the registered ID and
`Healthy = true`, refuting the claim for this backend. -/
theorem c1_counterexample :
    (EtcdRegistry.Register svcPricing etcdEmpty).2 = none ∧
    (EtcdRegistry.Discover "pricing" (EtcdRegistry.Register svcPricing etcdEmpty).1).1
      = [svcPricing] ∧
    svcPricing.id = "svc-1" ∧ svcPricing.healthy = false ∧
    ¬ ∃ e ∈ (EtcdRegistry.Discover "pricing"
        (EtcdRegistry.Register svcPricing etcdEmpty).1).1,
        e.id = "svc-1" ∧ e.healthy = true := by
  decide

/-- C4 (confirmed): deregistering an ID that is not currently registered
is a silent no-op returning `nil` on the in-memory backend, and on the
lease-store backend — whose local bookkeeping cannot resolve the ID to a
key — it returns the `service {id} not found` error with the whole state
untouched. -/
theorem c4_deregister_unknown (serviceID : String) (m : MemState) (st : EtcdState)
    (hm : alLookup serviceID m = none)
    (he : alLookup serviceID st.services = none) :
    MemoryRegistry.Deregister serviceID m = (m, none) ∧
    EtcdRegistry.Deregister serviceID st =
      (st, some ("service " ++ serviceID ++ " not found")) := by
  constructor
  · simp [MemoryRegistry.Deregister, hm]
  · simp [EtcdRegistry.Deregister, he]

/-- Witness for C4 at the unknown ID `"ghost"` on an empty in-memory map
and the empty etcd backend state. -/
theorem c4_witness :
    MemoryRegistry.Deregister "ghost" [] = ([], none) ∧
    EtcdRegistry.Deregister "ghost" etcdEmpty =
      (etcdEmpty, some ("service " ++ "ghost" ++ " not found")) :=
  c4_deregister_unknown "ghost" [] etcdEmpty rfl rfl

/-- C5 (amended): per tick of the 30-second sweep, a record registered
at `regT` and never pulsed again is untouched while its age is at most
60s; at any tick where its age exceeds 60s but not 120s it is marked
`Healthy = false` yet retained in the map — and is therefore absent
from `Discover` results, since `Discover` returns only healthy records.
The last three conjuncts govern the marked (`Healthy = false`) state a
previous tick produced: a later tick whose age is still at most 120s
retains it unchanged, `Discover` never shows it, and the first tick at
which the age exceeds 120s removes it from the map entirely. -/
theorem c5_sweep_lifecycle (svc : ServiceInfo) (regT t : Nat) :
    (t - regT ≤ 60 →
      MemoryRegistry.sweepAt t (MemoryRegistry.Register regT svc []).1
        = (MemoryRegistry.Register regT svc []).1) ∧
    (60 < t - regT → t - regT ≤ 120 →
      MemoryRegistry.sweepAt t (MemoryRegistry.Register regT svc []).1
        = [(svc.id, { svc with healthy := false, lastSeen := regT })] ∧
      (MemoryRegistry.Discover svc.name
          (MemoryRegistry.sweepAt t (MemoryRegistry.Register regT svc []).1)).1 = []) ∧
    (120 < t - regT →
      MemoryRegistry.sweepAt t (MemoryRegistry.Register regT svc []).1 = []) ∧
    (t - regT ≤ 120 →
      MemoryRegistry.sweepAt t [(svc.id, { svc with healthy := false, lastSeen := regT })]
        = [(svc.id, { svc with healthy := false, lastSeen := regT })]) ∧
    (MemoryRegistry.Discover svc.name
        [(svc.id, { svc with healthy := false, lastSeen := regT })]).1 = [] ∧
    (120 < t - regT →
      MemoryRegistry.sweepAt t [(svc.id, { svc with healthy := false, lastSeen := regT })]
        = []) := by
  refine ⟨?_, ?_, ?_, ?_, ?_, ?_⟩
  · intro h
    have h60 : ¬ (60 < t - regT) := by omega
    have h120 : ¬ (120 < t - regT) := by omega
    simp [MemoryRegistry.Register, MemoryRegistry.sweepAt, MemoryRegistry.sweepRecord,
      alUpdate, List.filterMap_cons, h60, h120]
  · intro h₁ h₂
    have h120 : ¬ (120 < t - regT) := by omega
    constructor
    · simp [MemoryRegistry.Register, MemoryRegistry.sweepAt, MemoryRegistry.sweepRecord,
        alUpdate, List.filterMap_cons, h₁, h120]
    · simp [MemoryRegistry.Register, MemoryRegistry.sweepAt, MemoryRegistry.sweepRecord,
        MemoryRegistry.Discover, alUpdate, List.filterMap_cons, h₁, h120]
  · intro h
    have h60 : 60 < t - regT := by omega
    simp [MemoryRegistry.Register, MemoryRegistry.sweepAt, MemoryRegistry.sweepRecord,
      alUpdate, List.filterMap_cons, h, h60]
  · intro h
    have h120 : ¬ (120 < t - regT) := by omega
    by_cases h60 : 60 < t - regT <;>
      simp [MemoryRegistry.sweepAt, MemoryRegistry.sweepRecord, List.filterMap_cons,
        h60, h120]
  · simp [MemoryRegistry.Discover]
  · intro h
    by_cases h60 : 60 < t - regT <;>
      simp [MemoryRegistry.sweepAt, MemoryRegistry.sweepRecord, List.filterMap_cons,
        h60, h]

/-- Witness for C5 at `regT = 0`: a tick at `t = 50` leaves the record
alone, a tick at `t = 91` marks it unhealthy, retains it, and hides it
from `Discover`, and a tick at `t = 121` removes it directly; on the
marked state produced by an earlier tick, a tick at `t = 120` retains it
and the tick at `t = 150` removes it, so the composed run with ticks at
90 and 150 ends with the record gone from the map. -/
theorem c5_witness :
    MemoryRegistry.sweepAt 50 (MemoryRegistry.Register 0 svcPricing []).1
      = (MemoryRegistry.Register 0 svcPricing []).1 ∧
    MemoryRegistry.sweepAt 91 (MemoryRegistry.Register 0 svcPricing []).1
      = [(svcPricing.id, { svcPricing with healthy := false, lastSeen := 0 })] ∧
    (MemoryRegistry.Discover svcPricing.name
        (MemoryRegistry.sweepAt 91 (MemoryRegistry.Register 0 svcPricing []).1)).1 = [] ∧
    MemoryRegistry.sweepAt 121 (MemoryRegistry.Register 0 svcPricing []).1 = [] ∧
    MemoryRegistry.sweepAt 120
        [(svcPricing.id, { svcPricing with healthy := false, lastSeen := 0 })]
      = [(svcPricing.id, { svcPricing with healthy := false, lastSeen := 0 })] ∧
    MemoryRegistry.sweepAt 150
        [(svcPricing.id, { svcPricing with healthy := false, lastSeen := 0 })]
      = [] ∧
    MemoryRegistry.runSweeps [90, 150] (MemoryRegistry.Register 0 svcPricing []).1 = [] := by
  refine ⟨(c5_sweep_lifecycle svcPricing 0 50).1 (by decide),
    ((c5_sweep_lifecycle svcPricing 0 91).2.1 (by decide) (by decide)).1,
    ((c5_sweep_lifecycle svcPricing 0 91).2.1 (by decide) (by decide)).2,
    (c5_sweep_lifecycle svcPricing 0 121).2.2.1 (by decide),
    (c5_sweep_lifecycle svcPricing 0 120).2.2.2.1 (by decide),
    (c5_sweep_lifecycle svcPricing 0 150).2.2.2.2.2 (by decide), ?_⟩
  have h₁ := ((c5_sweep_lifecycle svcPricing 0 90).2.1 (by decide) (by decide)).1
  have h₂ := (c5_sweep_lifecycle svcPricing 0 150).2.2.2.2.2 (by decide)
  simp only [MemoryRegistry.runSweeps, List.foldl_cons, List.foldl_nil]
  rw [h₁, h₂]

/-- C5 counterexample: a record registered at time 0 on a backend whose
sweep ticks fall at times 30 and 60 is, at time 61, still present and
healthy (the age at the tick at 60 was exactly 60s, not more), so
`Discover` at `T+61s` has no entry with `Healthy = false`; and even
after the tick at 90 marks the record unhealthy, `Discover` returns the
empty list rather than an entry with `Healthy = false`, because
`Discover` filters unhealthy records out. -/
theorem c5_counterexample :
    (MemoryRegistry.Discover "pricing"
        (MemoryRegistry.runSweeps [30, 60] (MemoryRegistry.Register 0 svcPricing []).1)).1
      = [{ svcPricing with healthy := true, lastSeen := 0 }] ∧
    (¬ ∃ e ∈ (MemoryRegistry.Discover "pricing"
        (MemoryRegistry.runSweeps [30, 60] (MemoryRegistry.Register 0 svcPricing []).1)).1,
        e.id = "svc-1" ∧ e.healthy = false) ∧
    (MemoryRegistry.Discover "pricing"
        (MemoryRegistry.runSweeps [30, 60, 90] (MemoryRegistry.Register 0 svcPricing []).1)).1
      = [] := by
  decide

/-- C6 (amended): `Register` is an idempotent upsert — no error, one
record for the ID reflecting the latest data.  On the in-memory backend
(keyed by ID alone) and in the lease-store backend's local `services`
map this holds unconditionally, for any re-registered record with the
same ID; in the lease-store keyspace it holds provided the
re-registration keeps the same `Name`, since the key includes the
`Name`: then the double register collapses to a single upsert of the
final record over the original keyspace.  (Re-registering an ID under a
different `Name` leaves the old key in the store; see the
counterexample.) -/
theorem c6_upsert (now₁ now₂ : Nat) (svc₁ svc₂ : ServiceInfo) (m : MemState)
    (st : EtcdState) (hid : svc₁.id = svc₂.id) :
    MemoryRegistry.Register now₂ svc₂ (MemoryRegistry.Register now₁ svc₁ m).1
      = MemoryRegistry.Register now₂ svc₂ m ∧
    (MemoryRegistry.Register now₂ svc₂ (MemoryRegistry.Register now₁ svc₁ m).1).2 = none ∧
    (EtcdRegistry.Register svc₂ (EtcdRegistry.Register svc₁ st).1).2 = none ∧
    (EtcdRegistry.Register svc₂ (EtcdRegistry.Register svc₁ st).1).1.services
      = alUpdate svc₂.id svc₂ st.services ∧
    (svc₁.name = svc₂.name →
      (EtcdRegistry.Register svc₂ (EtcdRegistry.Register svc₁ st).1).1.kv
        = alUpdate (serviceKey svc₂.name svc₂.id) (marshalService svc₂, st.nextLease + 1)
            st.kv) := by
  refine ⟨?_, rfl, rfl, ?_, ?_⟩
  · simp only [MemoryRegistry.Register, hid, alUpdate_alUpdate]
  · simp only [EtcdRegistry.Register, hid, alUpdate_alUpdate]
  · intro hname
    simp only [EtcdRegistry.Register, hid, hname, alUpdate_alUpdate]

/-- Witness for C6: re-registering instance `"a"` of `"n1"` with new
address data collapses to a single upsert on both backends, and the
in-memory collapse also holds when the re-registration changes the
`Name` to `"n2"`. -/
theorem c6_witness :
    MemoryRegistry.Register 7 ⟨"a", "n1", "h9", 9, [], [], true, 0⟩
        (MemoryRegistry.Register 3 svcN1 []).1
      = MemoryRegistry.Register 7 ⟨"a", "n1", "h9", 9, [], [], true, 0⟩ [] ∧
    (MemoryRegistry.Register 7 ⟨"a", "n1", "h9", 9, [], [], true, 0⟩
        (MemoryRegistry.Register 3 svcN1 []).1).2 = none ∧
    MemoryRegistry.Register 7 svcN2 (MemoryRegistry.Register 3 svcN1 []).1
      = MemoryRegistry.Register 7 svcN2 [] ∧
    (EtcdRegistry.Register ⟨"a", "n1", "h9", 9, [], [], true, 0⟩
        (EtcdRegistry.Register svcN1 etcdEmpty).1).2 = none ∧
    (EtcdRegistry.Register ⟨"a", "n1", "h9", 9, [], [], true, 0⟩
        (EtcdRegistry.Register svcN1 etcdEmpty).1).1.services
      = alUpdate "a" ⟨"a", "n1", "h9", 9, [], [], true, 0⟩ etcdEmpty.services ∧
    (EtcdRegistry.Register ⟨"a", "n1", "h9", 9, [], [], true, 0⟩
        (EtcdRegistry.Register svcN1 etcdEmpty).1).1.kv
      = alUpdate (serviceKey "n1" "a")
          (marshalService ⟨"a", "n1", "h9", 9, [], [], true, 0⟩, etcdEmpty.nextLease + 1)
          etcdEmpty.kv :=
  ⟨(c6_upsert 3 7 svcN1 ⟨"a", "n1", "h9", 9, [], [], true, 0⟩ [] etcdEmpty rfl).1,
   (c6_upsert 3 7 svcN1 ⟨"a", "n1", "h9", 9, [], [], true, 0⟩ [] etcdEmpty rfl).2.1,
   (c6_upsert 3 7 svcN1 svcN2 [] etcdEmpty rfl).1,
   (c6_upsert 3 7 svcN1 ⟨"a", "n1", "h9", 9, [], [], true, 0⟩ [] etcdEmpty rfl).2.2.1,
   (c6_upsert 3 7 svcN1 ⟨"a", "n1", "h9", 9, [], [], true, 0⟩ [] etcdEmpty rfl).2.2.2.1,
   (c6_upsert 3 7 svcN1 ⟨"a", "n1", "h9", 9, [], [], true, 0⟩ [] etcdEmpty rfl).2.2.2.2 rfl⟩

/-- C6 counterexample: on the lease-store backend, registering instance
`"a"` under name `"n1"` and then registering the same ID under name
`"n2"` succeeds but leaves two currently-registered (discoverable)
records whose `id` field is `"a"` — the old key is not deleted — so the
ID is no longer unique among the backend's registered records. -/
theorem c6_counterexample :
    (EtcdRegistry.Discover "n1"
        (EtcdRegistry.Register svcN2 (EtcdRegistry.Register svcN1 etcdEmpty).1).1).1
      = [svcN1] ∧
    (EtcdRegistry.Discover "n2"
        (EtcdRegistry.Register svcN2 (EtcdRegistry.Register svcN1 etcdEmpty).1).1).1
      = [svcN2] ∧
    (((EtcdRegistry.Register svcN2
          (EtcdRegistry.Register svcN1 etcdEmpty).1).1.kv.filterMap
        fun e => unmarshalService e.2.1).filter fun s => s.id = "a").length = 2 := by
  decide

/-- C7 (confirmed): every successful lease-store `Register` grants a
lease with a 30-second TTL and writes, bound to that lease, the record
serialized as a flat JSON object with fields `id, name, address, port,
tags, meta, healthy, last_seen`, under exactly the key
`/services/{Name}/{ID}`. -/
theorem c7_register_lease_and_key (svc : ServiceInfo) (st : EtcdState) :
    (EtcdRegistry.Register svc st).2 = none ∧
    (st.nextLease, 30) ∈ (EtcdRegistry.Register svc st).1.leases ∧
    alLookup (serviceKey svc.name svc.id) (EtcdRegistry.Register svc st).1.kv
      = some (marshalService svc, st.nextLease) ∧
    serviceKey svc.name svc.id = "/services/" ++ svc.name ++ "/" ++ svc.id ∧
    marshalService svc = Json.obj
      [("id", Json.str svc.id), ("name", Json.str svc.name),
       ("address", Json.str svc.address), ("port", Json.num svc.port),
       ("tags", Json.arr (svc.tags.map Json.str)),
       ("meta", Json.obj (svc.meta.map fun p => (p.1, Json.str p.2))),
       ("healthy", Json.jbool svc.healthy), ("last_seen", Json.time svc.lastSeen)] := by
  refine ⟨rfl, ?_, ?_, rfl, rfl⟩
  · simp [EtcdRegistry.Register]
  · exact alLookup_alUpdate_self _ _ _

/-- C3 (confirmed): for every connectivity environment, backend-type
selector and address, the factory returns a backend (the Go signature
returns only `Registry`, with no error channel at all): selector
`"etcd"` (case-insensitively) yields the etcd backend exactly when its
construction succeeds and the in-memory backend otherwise, selector
`"consul"` likewise, and every other selector yields the in-memory
backend. -/
theorem c3_factory_fallback (env : ConnEnv) (registryType address : String) :
    (toLowerModel registryType = "etcd" →
      NewRegistry env registryType address =
        (if env.etcdOk (etcdEndpoints
            (if address = "" then [] else splitComma address)) then BackendKind.etcd
         else BackendKind.memory)) ∧
    (toLowerModel registryType = "consul" →
      NewRegistry env registryType address =
        (if env.consulOk address then BackendKind.consul else BackendKind.memory)) ∧
    (toLowerModel registryType ≠ "etcd" → toLowerModel registryType ≠ "consul" →
      NewRegistry env registryType address = BackendKind.memory) := by
  unfold NewRegistry
  split
  · next h => exact ⟨fun _ => rfl, fun hc => absurd (h ▸ hc) (by decide), fun he _ => absurd h he⟩
  · next h => exact ⟨fun he => absurd (h ▸ he) (by decide), fun _ => rfl, fun _ hc => absurd h hc⟩
  · next h₁ h₂ => exact ⟨fun he => absurd he h₁, fun hc => absurd hc h₂, fun _ _ => rfl⟩

/-- Witness for C3: with both external backends failing to construct,
the selector `"ETCD"` (mixed case) and an empty address yield the
in-memory backend. -/
theorem c3_witness :
    NewRegistry ⟨fun _ => false, fun _ => false⟩ "ETCD" "" = BackendKind.memory := by
  have h := (c3_factory_fallback ⟨fun _ => false, fun _ => false⟩ "ETCD" "").1 (by decide)
  rw [h]
  decide

/-- C8 (confirmed): during a lease-store `Discover` prefix scan, an
entry whose payload fails to deserialize is skipped and scanning
continues: the error is `nil` and the scan of a keyspace containing the
malformed entry returns exactly what the scan without it returns. -/
theorem c8_discover_skips_malformed (serviceName k : String) (v : Json) (lease : Nat)
    (pre post : List (String × (Json × Nat))) (leases : List (Nat × Nat))
    (services : List (String × ServiceInfo)) (lid nl : Nat)
    (hbad : unmarshalService v = none) :
    (EtcdRegistry.Discover serviceName
        ⟨pre ++ (k, (v, lease)) :: post, leases, services, lid, nl⟩).2 = none ∧
    EtcdRegistry.Discover serviceName
        ⟨pre ++ (k, (v, lease)) :: post, leases, services, lid, nl⟩
      = EtcdRegistry.Discover serviceName ⟨pre ++ post, leases, services, lid, nl⟩ := by
  refine ⟨rfl, ?_⟩
  simp only [EtcdRegistry.Discover, List.filter_append, List.filter_cons]
  by_cases h : isPfxOf (servicePfx serviceName) k
  · simp [h, List.filterMap_append, List.filterMap_cons, hbad]
  · simp [h]

/-- Witness for C8: a scan over a well-formed record, a malformed
payload (`"garbage"`), and another well-formed record equals the scan
without the malformed entry. -/
theorem c8_witness :
    (EtcdRegistry.Discover "pricing"
        ⟨[(serviceKey "pricing" "a", (marshalService svcN1, 1))] ++
          ("/services/pricing/bad", (Json.str "garbage", 2)) ::
          [(serviceKey "pricing" "b", (marshalService svcN2, 3))], [], [], 0, 4⟩).2 = none ∧
    EtcdRegistry.Discover "pricing"
        ⟨[(serviceKey "pricing" "a", (marshalService svcN1, 1))] ++
          ("/services/pricing/bad", (Json.str "garbage", 2)) ::
          [(serviceKey "pricing" "b", (marshalService svcN2, 3))], [], [], 0, 4⟩
      = EtcdRegistry.Discover "pricing"
          ⟨[(serviceKey "pricing" "a", (marshalService svcN1, 1))] ++
            [(serviceKey "pricing" "b", (marshalService svcN2, 3))], [], [], 0, 4⟩ :=
  c8_discover_skips_malformed "pricing" "/services/pricing/bad" (Json.str "garbage") 2
    [(serviceKey "pricing" "a", (marshalService svcN1, 1))]
    [(serviceKey "pricing" "b", (marshalService svcN2, 3))] [] [] 0 4 rfl

/-- C9 (confirmed): in the three-backend variant, `NewMemoryRegistry` is
a lazy-once process-wide singleton: a second call returns the very
pointer the first call returned and changes nothing; `Close` through
that shared pointer returns `nil` and cancels the one shared instance's
context (stopping the shared sweep); and a call after `Close` still
hands out the same, now-cancelled instance.  The well-formedness
hypothesis says the package-level pointer, if set, refers to an
allocated object. -/
theorem c9_memory_singleton (ps : ProcState)
    (hwf : ∀ p, ps.memoryRegistryInstance = some p → p < ps.objs.length) :
    (NewMemoryRegistry (NewMemoryRegistry ps).1).2 = (NewMemoryRegistry ps).2 ∧
    (NewMemoryRegistry (NewMemoryRegistry ps).1).1 = (NewMemoryRegistry ps).1 ∧
    (closeMemoryRegistry (NewMemoryRegistry ps).2 (NewMemoryRegistry ps).1).2 = none ∧
    ((closeMemoryRegistry (NewMemoryRegistry ps).2 (NewMemoryRegistry ps).1).1.objs[
        (NewMemoryRegistry ps).2]?).map (fun o => o.cancelled) = some true ∧
    (NewMemoryRegistry
        (closeMemoryRegistry (NewMemoryRegistry ps).2 (NewMemoryRegistry ps).1).1).2
      = (NewMemoryRegistry ps).2 := by
  cases hps : ps.memoryRegistryInstance with
  | some p =>
      have hlt : p < ps.objs.length := hwf p hps
      have ho : ps.objs[p]? = some ps.objs[p] := List.getElem?_eq_getElem hlt
      simp [NewMemoryRegistry, closeMemoryRegistry, hps, ho, List.getElem?_set_self hlt]
  | none =>
      simp [NewMemoryRegistry, closeMemoryRegistry, hps, List.getElem?_concat_length,
        List.getElem?_set_self (by simp : ps.objs.length < (ps.objs ++ [(⟨[], false⟩ : MemoryRegistryObj)]).length)]

/-- Witness for C9 from the initial process state (no instance yet). -/
theorem c9_witness :
    (NewMemoryRegistry (NewMemoryRegistry ⟨[], none⟩).1).2
      = (NewMemoryRegistry (⟨[], none⟩ : ProcState)).2 ∧
    (NewMemoryRegistry (NewMemoryRegistry ⟨[], none⟩).1).1
      = (NewMemoryRegistry (⟨[], none⟩ : ProcState)).1 :=
  ⟨(c9_memory_singleton ⟨[], none⟩ (fun _ h => nomatch h)).1,
   (c9_memory_singleton ⟨[], none⟩ (fun _ h => nomatch h)).2.1⟩

/-- C10 (confirmed): the in-memory backend's `HealthCheck` returns `nil`
for every ID; on an ID that is not registered it leaves the map
entirely unchanged, and on a registered ID its only effect is to
replace that one record with a copy whose `LastSeen` is now and whose
`Healthy` is true. -/
theorem c10_healthcheck (now : Nat) (serviceID : String) (m : MemState) :
    (MemoryRegistry.HealthCheck now serviceID m).2 = none ∧
    (alLookup serviceID m = none → MemoryRegistry.HealthCheck now serviceID m = (m, none)) ∧
    (∀ s, alLookup serviceID m = some s →
      MemoryRegistry.HealthCheck now serviceID m =
        (alUpdate serviceID { s with lastSeen := now, healthy := true } m, none)) := by
  refine ⟨?_, ?_, ?_⟩
  · cases h : alLookup serviceID m <;> simp [MemoryRegistry.HealthCheck, h]
  · intro h; simp [MemoryRegistry.HealthCheck, h]
  · intro s h; simp [MemoryRegistry.HealthCheck, h]

/-- Witness for C10: an unknown ID leaves a one-record map unchanged,
and pulsing the known ID refreshes exactly that record. -/
theorem c10_witness :
    MemoryRegistry.HealthCheck 9 "ghost" [("a", svcN1)] = ([("a", svcN1)], none) ∧
    MemoryRegistry.HealthCheck 9 "a" [("a", svcN1)] =
      (alUpdate "a" { svcN1 with lastSeen := 9, healthy := true } [("a", svcN1)], none) :=
  ⟨(c10_healthcheck 9 "ghost" [("a", svcN1)]).2.1 rfl,
   (c10_healthcheck 9 "a" [("a", svcN1)]).2.2 svcN1 rfl⟩

/-- C2 (code bug, evaluated at the failing input): the in-memory
backend's map stores the caller's `*ServiceInfo` pointer and `Discover`
returns those stored pointers, not copies.  Registering the
`"pricing"` record held in heap cell 0 and discovering it yields exactly
pointer 0; the caller then writes `Healthy = false` through its received
pointer, after which the record reachable from the backend's own map is
the mutated one and a later `Discover` for `"pricing"` returns the empty
list instead of the original record. -/
theorem c2_discover_aliases :
    MemoryRegistryP.Register 5 0 ⟨[⟨"svc-1", "pricing", "10.0.0.5", 9090, [], [], false, 0⟩]⟩ []
      = (⟨[⟨"svc-1", "pricing", "10.0.0.5", 9090, [], [], true, 5⟩]⟩, [("svc-1", 0)], none) ∧
    (MemoryRegistryP.Discover "pricing"
        ⟨[⟨"svc-1", "pricing", "10.0.0.5", 9090, [], [], true, 5⟩]⟩ [("svc-1", 0)]).1 = [0] ∧
    Heap.set ⟨[⟨"svc-1", "pricing", "10.0.0.5", 9090, [], [], true, 5⟩]⟩ 0
        ⟨"svc-1", "pricing", "10.0.0.5", 9090, [], [], false, 5⟩
      = ⟨[⟨"svc-1", "pricing", "10.0.0.5", 9090, [], [], false, 5⟩]⟩ ∧
    (alLookup "svc-1" [("svc-1", 0)]).bind
        (Heap.get ⟨[⟨"svc-1", "pricing", "10.0.0.5", 9090, [], [], false, 5⟩]⟩)
      = some ⟨"svc-1", "pricing", "10.0.0.5", 9090, [], [], false, 5⟩ ∧
    (MemoryRegistryP.Discover "pricing"
        ⟨[⟨"svc-1", "pricing", "10.0.0.5", 9090, [], [], false, 5⟩]⟩ [("svc-1", 0)]).1 = [] := by
  decide

end ChainRegistry
